import Mathlib

/-!
Shallow embedding of the tfsync Terraform provider's `s3_object` resource
(internal/provider: `S3ObjectResource` with its Create/Read/Update/Delete
handlers and the helper functions `getStateFile`, `getS3ObjectContents`,
`putS3ObjectContents`, `deleteS3Object`, `sha256Contents`,
`newS3ObjectResourceID`, `newTags`).

Bytes are modelled as `List Nat` (each element a Go byte, `< 256` where it
matters).  The two external network clients (the TFE state-source client and
the S3 object-store client) are modelled as response oracles; every network
call an operation issues is recorded in an explicit call log so that claims
about "zero write calls" / "exactly one put call" are statable.  Diagnostics
mirror the plugin framework's `diag.Diagnostics` (severity, summary, detail).
-/

/-! ## Diagnostics (terraform-plugin-framework `diag.Diagnostics`) -/

inductive Severity where
  | error
  | warning
deriving DecidableEq, Repr

structure Diagnostic where
  severity : Severity
  summary : String
  detail : String
deriving DecidableEq, Repr

def Severity.isError : Severity → Bool
  | .error => true
  | .warning => false

def errDiag (summary detail : String) : Diagnostic :=
  ⟨Severity.error, summary, detail⟩

def warnDiag (summary detail : String) : Diagnostic :=
  ⟨Severity.warning, summary, detail⟩

/-- `diag.Diagnostics.HasError()`: true iff some accumulated diagnostic has
error severity. -/
def hasError (ds : List Diagnostic) : Bool :=
  ds.any fun d => d.severity.isError

def warningCount (ds : List Diagnostic) : Nat :=
  (ds.filter fun d => !d.severity.isError).length

/-! ## SHA-256 (Go `crypto/sha256.Sum256`) over byte lists -/

def M32 : Nat := 4294967296

def rotr (n x : Nat) : Nat :=
  ((x >>> n) ||| ((x <<< (32 - n)) % M32))

def bigSigma0 (x : Nat) : Nat := (rotr 2 x) ^^^ (rotr 13 x) ^^^ (rotr 22 x)

def bigSigma1 (x : Nat) : Nat := (rotr 6 x) ^^^ (rotr 11 x) ^^^ (rotr 25 x)

def smallSigma0 (x : Nat) : Nat := (rotr 7 x) ^^^ (rotr 18 x) ^^^ (x >>> 3)

def smallSigma1 (x : Nat) : Nat := (rotr 17 x) ^^^ (rotr 19 x) ^^^ (x >>> 10)

def chFn (e f g : Nat) : Nat := (e &&& f) ^^^ ((e ^^^ 4294967295) &&& g)

def majFn (a b c : Nat) : Nat := (a &&& b) ^^^ (a &&& c) ^^^ (b &&& c)

def sha256K : List Nat :=
  [1116352408, 1899447441, 3049323471, 3921009573, 961987163,
   1508970993, 2453635748, 2870763221, 3624381080, 310598401,
   607225278, 1426881987, 1925078388, 2162078206, 2614888103,
   3248222580, 3835390401, 4022224774, 264347078, 604807628,
   770255983, 1249150122, 1555081692, 1996064986, 2554220882,
   2821834349, 2952996808, 3210313671, 3336571891, 3584528711,
   113926993, 338241895, 666307205, 773529912, 1294757372,
   1396182291, 1695183700, 1986661051, 2177026350, 2456956037,
   2730485921, 2820302411, 3259730800, 3345764771, 3516065817,
   3600352804, 4094571909, 275423344, 430227734, 506948616,
   659060556, 883997877, 958139571, 1322822218, 1537002063,
   1747873779, 1955562222, 2024104815, 2227730452, 2361852424,
   2428436474, 2756734187, 3204031479, 3329325298]

structure Sha256H where
  h0 : Nat
  h1 : Nat
  h2 : Nat
  h3 : Nat
  h4 : Nat
  h5 : Nat
  h6 : Nat
  h7 : Nat
deriving Repr

def sha256H0 : Sha256H :=
  ⟨1779033703, 3144134277, 1013904242, 2773480762,
   1359893119, 2600822924, 528734635, 1541459225⟩

structure Sha2Work where
  a : Nat
  b : Nat
  c : Nat
  d : Nat
  e : Nat
  f : Nat
  g : Nat
  h : Nat

def compressStep (st : Sha2Work) (kw : Nat × Nat) : Sha2Work :=
  let t1 := (st.h + bigSigma1 st.e + chFn st.e st.f st.g + kw.2 + kw.1) % M32
  let t2 := (bigSigma0 st.a + majFn st.a st.b st.c) % M32
  { a := (t1 + t2) % M32, b := st.a, c := st.b, d := st.c,
    e := (st.d + t1) % M32, f := st.e, g := st.f, h := st.g }

/-- Message-schedule extension; `rw` is the schedule so far, most recent word
first, so `rw.getD 1 0` is `w[t-2]`, `rw.getD 6 0` is `w[t-7]`, etc. -/
def extendW : List Nat → Nat → List Nat
  | rw, 0 => rw
  | rw, n+1 =>
    extendW (((smallSigma1 (rw.getD 1 0) + rw.getD 6 0
      + smallSigma0 (rw.getD 14 0) + rw.getD 15 0) % M32) :: rw) n

/-- Big-endian 32-bit words from bytes (4 bytes per word). -/
def bytesToWords : List Nat → List Nat
  | b0 :: b1 :: b2 :: b3 :: rest =>
      (b0 * 16777216 + b1 * 65536 + b2 * 256 + b3) :: bytesToWords rest
  | _ => []

def processBlock (H : Sha256H) (block : List Nat) : Sha256H :=
  let w := (extendW (bytesToWords block).reverse 48).reverse
  let fin := (w.zip sha256K).foldl compressStep
    ⟨H.h0, H.h1, H.h2, H.h3, H.h4, H.h5, H.h6, H.h7⟩
  ⟨(H.h0 + fin.a) % M32, (H.h1 + fin.b) % M32, (H.h2 + fin.c) % M32,
   (H.h3 + fin.d) % M32, (H.h4 + fin.e) % M32, (H.h5 + fin.f) % M32,
   (H.h6 + fin.g) % M32, (H.h7 + fin.h) % M32⟩

/-- Big-endian 8-byte encoding of a 64-bit length. -/
def beBytes8 (n : Nat) : List Nat :=
  [(n >>> 56) % 256, (n >>> 48) % 256, (n >>> 40) % 256, (n >>> 32) % 256,
   (n >>> 24) % 256, (n >>> 16) % 256, (n >>> 8) % 256, n % 256]

def beBytes4 (n : Nat) : List Nat :=
  [(n >>> 24) % 256, (n >>> 16) % 256, (n >>> 8) % 256, n % 256]

def sha256Pad (msg : List Nat) : List Nat :=
  msg ++ 128 :: List.replicate ((64 - ((msg.length + 9) % 64)) % 64) 0
    ++ beBytes8 (msg.length * 8)

def chunksGo : Nat → List Nat → List (List Nat)
  | 0, _ => []
  | _, [] => []
  | fuel + 1, b :: rest => ((b :: rest).take 64) :: chunksGo fuel ((b :: rest).drop 64)

/-- Split into 64-byte blocks (the padded message length is a multiple of 64;
the fuel argument only makes the recursion structural). -/
def chunksOf64 (l : List Nat) : List (List Nat) :=
  chunksGo l.length l

def sha256Digest (msg : List Nat) : List Nat :=
  let final := (chunksOf64 (sha256Pad msg)).foldl processBlock sha256H0
  beBytes4 final.h0 ++ beBytes4 final.h1 ++ beBytes4 final.h2 ++ beBytes4 final.h3
    ++ beBytes4 final.h4 ++ beBytes4 final.h5 ++ beBytes4 final.h6 ++ beBytes4 final.h7

/-- Go `encoding/hex.EncodeToString`: lowercase hex. -/
def hexCharLower (n : Nat) : Char :=
  if n < 10 then Char.ofNat (48 + n) else Char.ofNat (87 + n)

def hexEncode (bytes : List Nat) : String :=
  String.mk ((bytes.map fun b => [hexCharLower (b / 16), hexCharLower (b % 16)]).flatten)

/-- `sha256Contents` from the source: sha256 of the bytes, hex-encoded
(lowercase); the Go version wraps it in `types.StringValue`. -/
def sha256Contents (contents : List Nat) : String :=
  hexEncode (sha256Digest contents)

/-! ## Tag serialization (`newTags`, Go `net/url.QueryEscape`)

Go strings are byte strings and `url.QueryEscape` operates bytewise, so tag
keys and values are modelled as byte lists.  A Go `map[string]string` is
modelled as an association list (one entry per key); Go's map iteration order
is unspecified, the list order stands in for one concrete iteration order. -/

/-- Bytes Go's `url.QueryEscape` leaves unescaped: ASCII alphanumerics and
`-`, `_`, `.`, `~`. -/
def isUnreserved (b : Nat) : Bool :=
  (65 ≤ b && b ≤ 90) || (97 ≤ b && b ≤ 122) || (48 ≤ b && b ≤ 57)
    || b = 45 || b = 46 || b = 95 || b = 126

def hexDigitUpper (n : Nat) : Nat :=
  if n < 10 then 48 + n else 55 + n

/-- One byte of `url.QueryEscape` output: unreserved bytes pass through,
space becomes `+` (43), anything else becomes `%XX` with uppercase hex. -/
def encodeByte (b : Nat) : List Nat :=
  if isUnreserved b then [b]
  else if b = 32 then [43]
  else [37, hexDigitUpper (b / 16), hexDigitUpper (b % 16)]

def queryEscape : List Nat → List Nat
  | [] => []
  | b :: rest => encodeByte b ++ queryEscape rest

/-- `strings.Join pairs "&"` over byte lists. -/
def joinAmp : List (List Nat) → List Nat
  | [] => []
  | [p] => p
  | p :: q :: ps => p ++ 38 :: joinAmp (q :: ps)

/-- `newTags`: serialize the tag mapping as URL-escaped `key=value` pairs
joined by `&` (61 is `=`, 38 is `&`). -/
def newTags (tags : List (List Nat × List Nat)) : List Nat :=
  joinAmp (tags.map fun kv => queryEscape kv.1 ++ 61 :: queryEscape kv.2)

/-! Spec-side decoder for the round-trip claim: split on `&`, split each pair
at the first `=`, URL-unescape each component. -/

def splitOnAmp : List Nat → List (List Nat)
  | [] => [[]]
  | b :: rest =>
    if b = 38 then [] :: splitOnAmp rest
    else
      match splitOnAmp rest with
      | p :: ps => (b :: p) :: ps
      | [] => [[b]]

/-- Split a byte list at the first `=` (61). -/
def splitEq : List Nat → List Nat × List Nat
  | [] => ([], [])
  | b :: rest =>
    if b = 61 then ([], rest)
    else
      let kv := splitEq rest
      (b :: kv.1, kv.2)

def isHexDigit (d : Nat) : Bool :=
  (48 ≤ d && d ≤ 57) || (65 ≤ d && d ≤ 70) || (97 ≤ d && d ≤ 102)

def hexVal (d : Nat) : Nat :=
  if 48 ≤ d && d ≤ 57 then d - 48
  else if 65 ≤ d && d ≤ 70 then d - 55
  else if 97 ≤ d && d ≤ 102 then d - 87
  else 0

/-- URL-unescaping (Go `url.QueryUnescape` semantics on well-formed input):
`+` is space, `%XX` decodes the hex byte, other bytes pass through. -/
def queryUnescape : List Nat → List Nat
  | [] => []
  | b :: rest =>
    if b = 43 then 32 :: queryUnescape rest
    else if b = 37 then
      match rest with
      | h1 :: h2 :: rest2 =>
        if isHexDigit h1 && isHexDigit h2 then
          (hexVal h1 * 16 + hexVal h2) :: queryUnescape rest2
        else b :: queryUnescape (h1 :: h2 :: rest2)
      | [] => [b]
      | [x] => [b, x]
    else b :: queryUnescape rest

/-- Decoder described by the round-trip claim: split the serialized string on
`&` and `=` and URL-unescape each component. -/
def decodeTags (s : List Nat) : List (List Nat × List Nat) :=
  (splitOnAmp s).map fun p => (queryUnescape (splitEq p).1, queryUnescape (splitEq p).2)

def bytesValid (bs : List Nat) : Bool :=
  bs.all fun b => b < 256

/-! ## Data model and external clients

`types.String` / `types.Bool` nullable framework values are modelled as
`Option`; `ValueString`/`ValueBool` return the zero value on null.  The three
required attributes (`workspace_id`, `bucket`, `key`) are plain `String`s
(required attributes are never null). -/

def valueString (s : Option String) : String := s.getD ""

def valueBool (b : Option Bool) : Bool := b.getD false

structure S3ObjectResourceModel where
  id : Option String
  workspaceId : String
  bucket : String
  key : String
  stateContentsSha256 : Option String
  bucketContentsSha256 : Option String
  kmsKeyId : Option String
  ignoreEmpty : Option Bool
  ignored : Option Bool
  softDelete : Option Bool
  tags : List (List Nat × List Nat)
deriving DecidableEq, Repr

/-- `"{workspaceId}/{bucket}/{key}"` (`newS3ObjectResourceID`). -/
def newS3ObjectResourceID (data : S3ObjectResourceModel) : String :=
  data.workspaceId ++ "/" ++ data.bucket ++ "/" ++ data.key

structure StateVersion where
  downloadURL : String
deriving DecidableEq, Repr

/-- go-tfe errors as seen through `errors.Is(err, tfe.ErrResourceNotFound)`:
either the distinguished not-found error or anything else. -/
inductive TfeError where
  | resourceNotFound
  | other (msg : String)
deriving DecidableEq, Repr

def TfeError.message : TfeError → String
  | .resourceNotFound => "resource not found"
  | .other m => m

def TfeError.isNotFound : TfeError → Bool
  | .resourceNotFound => true
  | .other _ => false

/-- Response oracle for the TFE client: what `StateVersions.ReadCurrent` and
`StateVersions.Download` would return for given arguments. -/
structure TfeClient where
  readCurrent : String → Except TfeError StateVersion
  download : String → Except TfeError (List Nat)

inductive TfeCall where
  | readCurrent (workspaceId : String)
  | download (url : String)
deriving DecidableEq, Repr

/-- The `PutObjectInput` the S3 SDK receives from `putS3ObjectContents`. -/
structure PutObjectInput where
  bucket : String
  key : String
  body : List Nat
  contentLength : Nat
  contentType : String
  checksumSha256 : Bool
  sseKms : Bool
  kmsKeyId : Option String
  tagging : Option (List Nat)
deriving DecidableEq, Repr

/-- Response oracle for the S3 client.  `getObject` folds the `GetObject`
call and the body read (`io.ReadAll`) into one byte/transport-error result;
`putObject`/`deleteObject` return `some errMsg` on failure, `none` on
success. -/
structure S3Client where
  getObject : String → String → Except String (List Nat)
  putObject : PutObjectInput → Option String
  deleteObject : String → String → Option String

inductive S3Call where
  | get (bucket key : String)
  | put (input : PutObjectInput)
  | delete (bucket key : String)
deriving DecidableEq, Repr

/-! ## Adapter functions (source helpers, with explicit call logs) -/

structure GetStateResult where
  state : List Nat
  diags : List Diagnostic
  ignored : Bool
  calls : List TfeCall

/-- `getStateFile`: resolve the current state version, then download it.
The ignored outcome happens exactly when `ignoreEmpty` is set and
`ReadCurrent` fails with the distinguished not-found error. -/
def getStateFile (client : TfeClient) (workspaceId : String) (ignoreEmpty : Bool) :
    GetStateResult :=
  match client.readCurrent workspaceId with
  | .error e =>
    if ignoreEmpty && e.isNotFound then
      ⟨[], [], true, [.readCurrent workspaceId]⟩
    else
      ⟨[], [errDiag "tfe client" ("failed to get state version: " ++ e.message)],
       false, [.readCurrent workspaceId]⟩
  | .ok ver =>
    match client.download ver.downloadURL with
    | .error e =>
      ⟨[], [errDiag "tfe client" ("failed to download state: " ++ e.message)],
       false, [.readCurrent workspaceId, .download ver.downloadURL]⟩
    | .ok state =>
      ⟨state, [], false, [.readCurrent workspaceId, .download ver.downloadURL]⟩

structure GetObjectResult where
  contents : List Nat
  diags : List Diagnostic
  calls : List S3Call

/-- `getS3ObjectContents`: `GetObject` then drain the body. -/
def getS3ObjectContents (client : S3Client) (bucket key : String) : GetObjectResult :=
  match client.getObject bucket key with
  | .error e =>
    ⟨[], [errDiag "s3 client" ("failed to get object: " ++ e)], [.get bucket key]⟩
  | .ok contents => ⟨contents, [], [.get bucket key]⟩

structure putObjectOptions where
  Bucket : String
  Key : String
  KmsKeyId : String
  Contents : List Nat
  Tags : List (List Nat × List Nat)
deriving DecidableEq, Repr

/-- `putObjectOptions.validate`: accumulates an error for each of empty
bucket, empty key, empty contents (the nil-receiver check has no analogue
here). -/
def putObjectOptions.validate (o : putObjectOptions) : List Diagnostic :=
  (if o.Bucket = "" then [errDiag "putObjectOptions" "empty bucket"] else [])
    ++ (if o.Key = "" then [errDiag "putObjectOptions" "empty key"] else [])
    ++ (if o.Contents = [] then [errDiag "putObjectOptions" "empty contents"] else [])

/-- The `PutObjectInput` built by `putS3ObjectContents`: fixed JSON content
type, SHA-256 checksum request, KMS encryption only for non-empty key id,
tagging only for non-empty tag set. -/
def mkPutObjectInput (o : putObjectOptions) : PutObjectInput :=
  { bucket := o.Bucket, key := o.Key, body := o.Contents,
    contentLength := o.Contents.length, contentType := "application/json",
    checksumSha256 := true,
    sseKms := o.KmsKeyId != "",
    kmsKeyId := if o.KmsKeyId = "" then none else some o.KmsKeyId,
    tagging := if o.Tags = [] then none else some (newTags o.Tags) }

structure PutResult where
  diags : List Diagnostic
  calls : List S3Call

/-- `putS3ObjectContents`: validate, then issue the put (the call is issued
whether or not the store reports an error; nothing is issued when validation
fails). -/
def putS3ObjectContents (client : S3Client) (o : putObjectOptions) : PutResult :=
  let d := o.validate
  if hasError d then ⟨d, []⟩
  else
    let input := mkPutObjectInput o
    match client.putObject input with
    | none => ⟨d, [.put input]⟩
    | some e => ⟨d ++ [errDiag "s3 client" ("failed s3 put object: " ++ e)], [.put input]⟩

/-- `deleteS3Object`: unconditional `DeleteObject`. -/
def deleteS3Object (client : S3Client) (bucket key : String) : PutResult :=
  match client.deleteObject bucket key with
  | none => ⟨[], [.delete bucket key]⟩
  | some e => ⟨[errDiag "s3 client" ("failed to delete s3 object: " ++ e)], [.delete bucket key]⟩

/-! ## The resource and its lifecycle handlers -/

/-- `S3ObjectResource`: provider-wide soft-delete default plus the two
(possibly absent, cf. `validateS3ObjectResource`) client handles. -/
structure S3ObjectResource where
  softDelete : Bool
  tfeClient : Option TfeClient
  s3Client : Option S3Client

/-- Result of one lifecycle call: the record written to `resp.State` (`none`
when the handler returns without setting it), the accumulated diagnostics,
and the logs of network calls issued to each client. -/
structure OpResult where
  newState : Option S3ObjectResourceModel
  diags : List Diagnostic
  tfeCalls : List TfeCall
  s3Calls : List S3Call

/-- `S3ObjectResource.Create`.  Note: the `putObjectOptions` built here carry
no tags (the Go source sets `Tags` only in `Update`). -/
def S3ObjectResource.Create (r : S3ObjectResource) (plan : S3ObjectResourceModel) :
    OpResult :=
  match r.s3Client with
  | none => ⟨none, [errDiag "provider" "nil s3 client"], [], []⟩
  | some s3c =>
    match r.tfeClient with
    | none => ⟨none, [errDiag "provider" "nil tfe client"], [], []⟩
    | some tfec =>
      let gs := getStateFile tfec plan.workspaceId (valueBool plan.ignoreEmpty)
      if hasError gs.diags then ⟨none, gs.diags, gs.calls, []⟩
      else
        let data := { plan with id := some (newS3ObjectResourceID plan),
                                ignored := some gs.ignored }
        if gs.ignored then
          ⟨some { data with stateContentsSha256 := none, bucketContentsSha256 := none },
           gs.diags, gs.calls, []⟩
        else
          let data := { data with
            stateContentsSha256 := some (sha256Contents gs.state),
            bucketContentsSha256 := some (sha256Contents gs.state) }
          let o : putObjectOptions :=
            { Bucket := plan.bucket, Key := plan.key,
              KmsKeyId := valueString plan.kmsKeyId, Contents := gs.state, Tags := [] }
          let pr := putS3ObjectContents s3c o
          if hasError pr.diags then ⟨none, gs.diags ++ pr.diags, gs.calls, pr.calls⟩
          else ⟨some data, gs.diags ++ pr.diags, gs.calls, pr.calls⟩

/-- `S3ObjectResource.Read`. -/
def S3ObjectResource.Read (r : S3ObjectResource) (prior : S3ObjectResourceModel) :
    OpResult :=
  match r.s3Client with
  | none => ⟨none, [errDiag "provider" "nil s3 client"], [], []⟩
  | some s3c =>
    match r.tfeClient with
    | none => ⟨none, [errDiag "provider" "nil tfe client"], [], []⟩
    | some tfec =>
      let gs := getStateFile tfec prior.workspaceId (valueBool prior.ignoreEmpty)
      if hasError gs.diags then ⟨none, gs.diags, gs.calls, []⟩
      else
        let data := { prior with id := some (newS3ObjectResourceID prior),
                                 ignored := some gs.ignored }
        if gs.ignored then
          ⟨some { data with stateContentsSha256 := none, bucketContentsSha256 := none },
           gs.diags, gs.calls, []⟩
        else
          let data := { data with stateContentsSha256 := some (sha256Contents gs.state) }
          let gc := getS3ObjectContents s3c prior.bucket prior.key
          if hasError gc.diags then ⟨none, gs.diags ++ gc.diags, gs.calls, gc.calls⟩
          else
            ⟨some { data with bucketContentsSha256 := some (sha256Contents gc.contents) },
             gs.diags ++ gc.diags, gs.calls, gc.calls⟩

/-- `S3ObjectResource.Update`.  The tag mapping is resolved from the plan and
forwarded to the put; the `id` field is never recomputed here (it is whatever
the plan carried). -/
def S3ObjectResource.Update (r : S3ObjectResource) (plan : S3ObjectResourceModel) :
    OpResult :=
  match r.s3Client with
  | none => ⟨none, [errDiag "provider" "nil s3 client"], [], []⟩
  | some s3c =>
    match r.tfeClient with
    | none => ⟨none, [errDiag "provider" "nil tfe client"], [], []⟩
    | some tfec =>
      let tags := plan.tags
      let gs := getStateFile tfec plan.workspaceId (valueBool plan.ignoreEmpty)
      if hasError gs.diags then ⟨none, gs.diags, gs.calls, []⟩
      else
        let data := { plan with ignored := some gs.ignored }
        if gs.ignored then
          ⟨some { data with stateContentsSha256 := none, bucketContentsSha256 := none },
           gs.diags, gs.calls, []⟩
        else
          let data := { data with
            stateContentsSha256 := some (sha256Contents gs.state),
            bucketContentsSha256 := some (sha256Contents gs.state) }
          let o : putObjectOptions :=
            { Bucket := plan.bucket, Key := plan.key,
              KmsKeyId := valueString plan.kmsKeyId, Contents := gs.state, Tags := tags }
          let pr := putS3ObjectContents s3c o
          if hasError pr.diags then ⟨none, gs.diags ++ pr.diags, gs.calls, pr.calls⟩
          else ⟨some data, gs.diags ++ pr.diags, gs.calls, pr.calls⟩

/-- `S3ObjectResource.Delete`: soft delete (provider default OR record flag)
warns and returns; otherwise one `DeleteObject` call. -/
def S3ObjectResource.Delete (r : S3ObjectResource) (data : S3ObjectResourceModel) :
    OpResult :=
  match r.s3Client with
  | none => ⟨none, [errDiag "provider" "nil s3 client"], [], []⟩
  | some s3c =>
    match r.tfeClient with
    | none => ⟨none, [errDiag "provider" "nil tfe client"], [], []⟩
    | some _ =>
      if r.softDelete || valueBool data.softDelete then
        ⟨none,
         [warnDiag "using soft delete" ("bucket: " ++ data.bucket ++ ", key: " ++ data.key)],
         [], []⟩
      else
        let dr := deleteS3Object s3c data.bucket data.key
        ⟨none, dr.diags, [], dr.calls⟩

/-! ## Concrete fixtures used by witnesses and counterexamples -/

/-- TFE oracle whose workspace has no current state version. -/
def tfeNotFoundClient : TfeClient :=
  ⟨fun _ => Except.error TfeError.resourceNotFound, fun _ => Except.error (TfeError.other "no url")⟩

/-- TFE oracle with current state version `"u"` downloading to bytes `[1,2,3]`. -/
def tfeOkClient : TfeClient :=
  ⟨fun _ => Except.ok ⟨"u"⟩, fun _ => Except.ok [1, 2, 3]⟩

/-- S3 oracle: object contents `[9,9]`, every put and delete succeeds. -/
def s3TrivialClient : S3Client :=
  ⟨fun _ _ => Except.ok [9, 9], fun _ => none, fun _ _ => none⟩

def resNotFound : S3ObjectResource := ⟨false, some tfeNotFoundClient, some s3TrivialClient⟩

def resOk : S3ObjectResource := ⟨false, some tfeOkClient, some s3TrivialClient⟩

/-- A plan with `ignoreEmpty = true` and a stale `id` field. -/
def planIgnore : S3ObjectResourceModel :=
  ⟨some "stale", "w", "b", "k", none, none, none, some true, none, none, []⟩

/-- A plan with a non-empty tag mapping (`{"a": "1", "b": "x y"}`). -/
def planTagged : S3ObjectResourceModel :=
  ⟨some "w/b/k", "w", "b", "k", none, none, none, none, none, none,
   [([97], [49]), ([98], [120, 32, 121])]⟩

/-! ## C8 — ignored outcome of the state fetch -/

/-- Does the two-step fetch (resolve current version, then download) fail?
Used to state the error-propagation half of the C8 claim. -/
def tfeFetchFails (c : TfeClient) (w : String) : Bool :=
  match c.readCurrent w with
  | .error _ => true
  | .ok v =>
    match c.download v.downloadURL with
    | .error _ => true
    | .ok _ => false

/-- C8: the ignored outcome of `getStateFile` occurs exactly when the caller
passed `ignoreEmpty = true` and resolving the current version fails with the
distinguished not-found error; every other failure of either step — download
failures of any kind included, and all failures when `ignoreEmpty` is false —
produces an error diagnostic and is not treated as ignored. -/
theorem getStateFile_ignore_policy (c : TfeClient) (w : String) (ie : Bool) :
    ((getStateFile c w ie).ignored = true ↔
      (ie = true ∧ c.readCurrent w = Except.error TfeError.resourceNotFound)) ∧
    hasError (getStateFile c w ie).diags =
      (tfeFetchFails c w && !(getStateFile c w ie).ignored) := by
  rcases h : c.readCurrent w with e | v
  · cases e <;> cases ie <;>
      simp [getStateFile, h, tfeFetchFails, hasError, errDiag,
        TfeError.isNotFound, Severity.isError]
  · rcases hd : c.download v.downloadURL with e2 | st <;>
      simp [getStateFile, h, hd, tfeFetchFails, hasError, errDiag, Severity.isError]

/-! ## C7 — write preconditions -/

/-- C7: `putS3ObjectContents` with empty contents, empty bucket, or empty key
returns an error diagnostic and issues no store call; a put reaches the store
iff contents, bucket and key are all non-empty. -/
theorem putS3ObjectContents_precondition (c : S3Client) (o : putObjectOptions) :
    ((o.Contents = [] ∨ o.Bucket = "" ∨ o.Key = "") →
      hasError (putS3ObjectContents c o).diags = true ∧
      (putS3ObjectContents c o).calls = []) ∧
    ((putS3ObjectContents c o).calls ≠ [] ↔
      (o.Contents ≠ [] ∧ o.Bucket ≠ "" ∧ o.Key ≠ "")) := by
  by_cases hb : o.Bucket = "" <;> by_cases hk : o.Key = "" <;> by_cases hc : o.Contents = []
  all_goals
    rcases hp : c.putObject (mkPutObjectInput o) with _ | e <;>
      simp [putS3ObjectContents, putObjectOptions.validate, hb, hk, hc, hp,
        hasError, errDiag, Severity.isError]

/-- Witness for C7 at an empty-bucket input. -/
theorem putS3ObjectContents_precondition_witness :
    hasError (putS3ObjectContents s3TrivialClient ⟨"", "k", "", [1], []⟩).diags = true ∧
    (putS3ObjectContents s3TrivialClient ⟨"", "k", "", [1], []⟩).calls = [] :=
  (putS3ObjectContents_precondition s3TrivialClient ⟨"", "k", "", [1], []⟩).1
    (Or.inr (Or.inl rfl))

/-! ## C6 — soft delete policy -/

/-- C6: with effective soft delete (provider default OR record flag) true,
Delete issues no store call and yields exactly one warning and no error; with
it false, Delete issues exactly one delete call and no warnings. -/
theorem delete_soft_delete_policy
    (r : S3ObjectResource) (tfec : TfeClient) (s3c : S3Client)
    (data : S3ObjectResourceModel)
    (htfe : r.tfeClient = some tfec) (hs3 : r.s3Client = some s3c) :
    ((r.softDelete || valueBool data.softDelete) = true →
      (r.Delete data).s3Calls = [] ∧
      warningCount (r.Delete data).diags = 1 ∧
      hasError (r.Delete data).diags = false) ∧
    ((r.softDelete || valueBool data.softDelete) = false →
      (r.Delete data).s3Calls = [S3Call.delete data.bucket data.key] ∧
      warningCount (r.Delete data).diags = 0) := by
  constructor
  · intro h
    simp [S3ObjectResource.Delete, htfe, hs3, h, warningCount, hasError,
      warnDiag, Severity.isError]
  · intro h
    rcases hd : s3c.deleteObject data.bucket data.key with _ | e <;>
      simp [S3ObjectResource.Delete, htfe, hs3, h, deleteS3Object, hd,
        warningCount, hasError, errDiag, Severity.isError]

/-- Witness for C6 on both sides of the effective soft-delete flag. -/
theorem delete_soft_delete_policy_witness :
    ((resOk.Delete { planIgnore with softDelete := some true }).s3Calls = [] ∧
      warningCount (resOk.Delete { planIgnore with softDelete := some true }).diags = 1 ∧
      hasError (resOk.Delete { planIgnore with softDelete := some true }).diags = false) ∧
    ((resOk.Delete planIgnore).s3Calls = [S3Call.delete "b" "k"] ∧
      warningCount (resOk.Delete planIgnore).diags = 0) :=
  ⟨(delete_soft_delete_policy resOk tfeOkClient s3TrivialClient
      { planIgnore with softDelete := some true } rfl rfl).1 rfl,
   (delete_soft_delete_policy resOk tfeOkClient s3TrivialClient planIgnore rfl rfl).2 rfl⟩

/-! ## C10 — Delete's frame -/

/-- C10: Delete never invokes the state-source client, never writes a record
back to the host, and its only possible store effect is the single
conditional delete call at the record's bucket and key. -/
theorem delete_frame (r : S3ObjectResource) (data : S3ObjectResourceModel) :
    (r.Delete data).tfeCalls = [] ∧
    (r.Delete data).newState = none ∧
    ((r.Delete data).s3Calls = [] ∨
      (r.Delete data).s3Calls = [S3Call.delete data.bucket data.key]) := by
  rcases hs : r.s3Client with _ | s3c
  · simp [S3ObjectResource.Delete, hs]
  · rcases ht : r.tfeClient with _ | tfec
    · simp [S3ObjectResource.Delete, hs, ht]
    · by_cases hsd : (r.softDelete || valueBool data.softDelete) = true
      · simp [S3ObjectResource.Delete, hs, ht, hsd]
      · rcases hd : s3c.deleteObject data.bucket data.key with _ | e <;>
          simp [S3ObjectResource.Delete, hs, ht, hsd, deleteS3Object, hd]

/-! ## C1 — the ignored path never writes -/

/-- C1: on Create and on Update, when the workspace has no current state
version and the record's `ignoreEmpty` flag is true, the operation returns a
record with `ignored = true` and both digest fields null, succeeds without
error, and issues zero calls of any kind to the object store (so nothing is
written and the pre-existing object, if any, is untouched). -/
theorem create_update_ignored_no_write
    (r : S3ObjectResource) (tfec : TfeClient) (s3c : S3Client)
    (plan : S3ObjectResourceModel)
    (htfe : r.tfeClient = some tfec) (hs3 : r.s3Client = some s3c)
    (hie : valueBool plan.ignoreEmpty = true)
    (hnf : tfec.readCurrent plan.workspaceId = Except.error TfeError.resourceNotFound) :
    (r.Create plan).newState = some { plan with
        id := some (newS3ObjectResourceID plan), ignored := some true,
        stateContentsSha256 := none, bucketContentsSha256 := none } ∧
    (r.Create plan).s3Calls = [] ∧
    hasError (r.Create plan).diags = false ∧
    (r.Update plan).newState = some { plan with
        ignored := some true,
        stateContentsSha256 := none, bucketContentsSha256 := none } ∧
    (r.Update plan).s3Calls = [] ∧
    hasError (r.Update plan).diags = false := by
  have hgs : getStateFile tfec plan.workspaceId (valueBool plan.ignoreEmpty) =
      ⟨[], [], true, [TfeCall.readCurrent plan.workspaceId]⟩ := by
    simp [getStateFile, hnf, hie, TfeError.isNotFound]
  simp [S3ObjectResource.Create, S3ObjectResource.Update, htfe, hs3, hgs, hasError]

/-- Witness for C1 on the not-found fixture with `ignoreEmpty = true`. -/
theorem create_update_ignored_no_write_witness :
    (resNotFound.Create planIgnore).newState = some { planIgnore with
        id := some (newS3ObjectResourceID planIgnore), ignored := some true,
        stateContentsSha256 := none, bucketContentsSha256 := none } ∧
    (resNotFound.Create planIgnore).s3Calls = [] ∧
    hasError (resNotFound.Create planIgnore).diags = false ∧
    (resNotFound.Update planIgnore).newState = some { planIgnore with
        ignored := some true,
        stateContentsSha256 := none, bucketContentsSha256 := none } ∧
    (resNotFound.Update planIgnore).s3Calls = [] ∧
    hasError (resNotFound.Update planIgnore).diags = false :=
  create_update_ignored_no_write resNotFound tfeNotFoundClient s3TrivialClient
    planIgnore rfl rfl rfl rfl

/-! ## C2 — write-then-digest consistency on Create and Update -/

/-- C2: when the state source returns non-empty bytes `S`, Create (and
likewise Update) returns a record whose two digest fields both equal the
lowercase hex SHA-256 of `S`, and issues exactly one store call: a put whose
body is `S` (in particular no read-back of the object). -/
theorem create_update_write_digest
    (r : S3ObjectResource) (tfec : TfeClient) (s3c : S3Client)
    (plan : S3ObjectResourceModel) (v : StateVersion) (S : List Nat)
    (htfe : r.tfeClient = some tfec) (hs3 : r.s3Client = some s3c)
    (hver : tfec.readCurrent plan.workspaceId = Except.ok v)
    (hdl : tfec.download v.downloadURL = Except.ok S)
    (hS : S ≠ []) (hb : plan.bucket ≠ "") (hk : plan.key ≠ "")
    (hput : ∀ i, s3c.putObject i = none) :
    (∃ d, (r.Create plan).newState = some d ∧
      d.stateContentsSha256 = some (sha256Contents S) ∧
      d.bucketContentsSha256 = some (sha256Contents S)) ∧
    (∃ i, (r.Create plan).s3Calls = [S3Call.put i] ∧ i.body = S) ∧
    (∃ d, (r.Update plan).newState = some d ∧
      d.stateContentsSha256 = some (sha256Contents S) ∧
      d.bucketContentsSha256 = some (sha256Contents S)) ∧
    (∃ i, (r.Update plan).s3Calls = [S3Call.put i] ∧ i.body = S) := by
  have hgs : getStateFile tfec plan.workspaceId (valueBool plan.ignoreEmpty) =
      ⟨S, [], false, [TfeCall.readCurrent plan.workspaceId, TfeCall.download v.downloadURL]⟩ := by
    simp [getStateFile, hver, hdl]
  refine
    ⟨⟨{ plan with
        id := some (newS3ObjectResourceID plan)
        ignored := some false
        stateContentsSha256 := some (sha256Contents S)
        bucketContentsSha256 := some (sha256Contents S) }, ?_, rfl, rfl⟩,
     ⟨mkPutObjectInput ⟨plan.bucket, plan.key, valueString plan.kmsKeyId, S, []⟩, ?_, rfl⟩,
     ⟨{ plan with
        ignored := some false
        stateContentsSha256 := some (sha256Contents S)
        bucketContentsSha256 := some (sha256Contents S) }, ?_, rfl, rfl⟩,
     ⟨mkPutObjectInput ⟨plan.bucket, plan.key, valueString plan.kmsKeyId, S, plan.tags⟩, ?_, rfl⟩⟩ <;>
  simp [S3ObjectResource.Create, S3ObjectResource.Update, htfe, hs3, hgs,
    putS3ObjectContents, putObjectOptions.validate, hb, hk, hS, hput, hasError]

/-- Witness for C2 on the ok-fixture (`S = [1,2,3]`). -/
theorem create_update_write_digest_witness :
    (∃ d, (resOk.Create planTagged).newState = some d ∧
      d.stateContentsSha256 = some (sha256Contents [1, 2, 3]) ∧
      d.bucketContentsSha256 = some (sha256Contents [1, 2, 3])) ∧
    (∃ i, (resOk.Create planTagged).s3Calls = [S3Call.put i] ∧ i.body = [1, 2, 3]) ∧
    (∃ d, (resOk.Update planTagged).newState = some d ∧
      d.stateContentsSha256 = some (sha256Contents [1, 2, 3]) ∧
      d.bucketContentsSha256 = some (sha256Contents [1, 2, 3])) ∧
    (∃ i, (resOk.Update planTagged).s3Calls = [S3Call.put i] ∧ i.body = [1, 2, 3]) :=
  create_update_write_digest resOk tfeOkClient s3TrivialClient planTagged ⟨"u"⟩ [1, 2, 3]
    rfl rfl rfl rfl (by decide) (by decide) (by decide) (fun _ => rfl)

/-! ## C3 — Read computes the two digests independently -/

/-- C3: Read returns `stateContentsSha256` as the digest of the remote state
bytes `S` and `bucketContentsSha256` as the digest of the independently
fetched object bytes `T`, issuing exactly one store call (the get) and no
write; the final conjunct exhibits the drift surface at concrete distinct
bytes (the universal "distinct bytes hash differently" reading is SHA-256
collision-freeness, checked here within test scope). -/
theorem read_independent_digests
    (r : S3ObjectResource) (tfec : TfeClient) (s3c : S3Client)
    (prior : S3ObjectResourceModel) (v : StateVersion) (S T : List Nat)
    (htfe : r.tfeClient = some tfec) (hs3 : r.s3Client = some s3c)
    (hver : tfec.readCurrent prior.workspaceId = Except.ok v)
    (hdl : tfec.download v.downloadURL = Except.ok S)
    (hget : s3c.getObject prior.bucket prior.key = Except.ok T) :
    (∃ d, (r.Read prior).newState = some d ∧
      d.stateContentsSha256 = some (sha256Contents S) ∧
      d.bucketContentsSha256 = some (sha256Contents T)) ∧
    (r.Read prior).s3Calls = [S3Call.get prior.bucket prior.key] ∧
    hasError (r.Read prior).diags = false ∧
    sha256Contents [0] ≠ sha256Contents [1] := by
  have hgs : getStateFile tfec prior.workspaceId (valueBool prior.ignoreEmpty) =
      ⟨S, [], false, [TfeCall.readCurrent prior.workspaceId, TfeCall.download v.downloadURL]⟩ := by
    simp [getStateFile, hver, hdl]
  have hgc : getS3ObjectContents s3c prior.bucket prior.key =
      ⟨T, [], [S3Call.get prior.bucket prior.key]⟩ := by
    simp [getS3ObjectContents, hget]
  refine
    ⟨⟨{ prior with
        id := some (newS3ObjectResourceID prior)
        ignored := some false
        stateContentsSha256 := some (sha256Contents S)
        bucketContentsSha256 := some (sha256Contents T) }, ?_, rfl, rfl⟩, ?_, ?_, by decide⟩ <;>
  simp [S3ObjectResource.Read, htfe, hs3, hgs, hgc, hasError]

/-- Witness for C3 (`S = [1,2,3]`, `T = [9,9]`). -/
theorem read_independent_digests_witness :
    (∃ d, (resOk.Read planTagged).newState = some d ∧
      d.stateContentsSha256 = some (sha256Contents [1, 2, 3]) ∧
      d.bucketContentsSha256 = some (sha256Contents [9, 9])) ∧
    (resOk.Read planTagged).s3Calls = [S3Call.get "b" "k"] ∧
    hasError (resOk.Read planTagged).diags = false ∧
    sha256Contents [0] ≠ sha256Contents [1] :=
  read_independent_digests resOk tfeOkClient s3TrivialClient planTagged ⟨"u"⟩
    [1, 2, 3] [9, 9] rfl rfl rfl rfl rfl

/-! ## C4 — id recomputation (fails on Update) -/

/-- The record Update returns for `planIgnore` on the ignored path. -/
def dUpdateStale : S3ObjectResourceModel :=
  { planIgnore with
    ignored := some true
    stateContentsSha256 := none
    bucketContentsSha256 := none }

/-- C4 counterexample: an Update whose plan carries the stale id `"stale"`
(while `workspaceId/bucket/key` are `w/b/k`) returns that stale id unchanged,
so the returned record's id is not the id function of its three identifying
fields — `Update` contains no call to `newS3ObjectResourceID`. -/
theorem update_keeps_stale_id_counterexample :
    (resNotFound.Update planIgnore).newState = some dUpdateStale ∧
    dUpdateStale.id = some "stale" ∧
    newS3ObjectResourceID dUpdateStale = "w/b/k" ∧
    dUpdateStale.id ≠ some (newS3ObjectResourceID dUpdateStale) :=
  ⟨rfl, rfl, rfl, by decide⟩

/-- C4 amended: every record returned by Create or Read carries
`id = "{workspaceId}/{bucket}/{key}"` recomputed from its own fields, while
every record returned by Update carries the planned `id` through unchanged. -/
theorem id_recompute_per_operation
    (r : S3ObjectResource) (plan d : S3ObjectResourceModel) :
    ((r.Create plan).newState = some d → d.id = some (newS3ObjectResourceID d)) ∧
    ((r.Read plan).newState = some d → d.id = some (newS3ObjectResourceID d)) ∧
    ((r.Update plan).newState = some d → d.id = plan.id) := by
  rcases hs : r.s3Client with _ | s3c
  · simp [S3ObjectResource.Create, S3ObjectResource.Read, S3ObjectResource.Update, hs]
  rcases ht : r.tfeClient with _ | tfec
  · simp [S3ObjectResource.Create, S3ObjectResource.Read, S3ObjectResource.Update, hs, ht]
  refine ⟨?_, ?_, ?_⟩ <;> intro h
  · simp only [S3ObjectResource.Create, hs, ht] at h
    repeat' split at h
    all_goals
      first
        | exact Option.noConfusion h
        | (injection h with hh; subst hh; simp [newS3ObjectResourceID])
  · simp only [S3ObjectResource.Read, hs, ht] at h
    repeat' split at h
    all_goals
      first
        | exact Option.noConfusion h
        | (injection h with hh; subst hh; simp [newS3ObjectResourceID])
  · simp only [S3ObjectResource.Update, hs, ht] at h
    repeat' split at h
    all_goals
      first
        | exact Option.noConfusion h
        | (injection h with hh; subst hh; simp)

/-- The record Create (and Read) returns for `planIgnore` on the ignored
path: id recomputed from `w/b/k`. -/
def dCreateIgnored : S3ObjectResourceModel :=
  { planIgnore with
    id := some (newS3ObjectResourceID planIgnore)
    ignored := some true
    stateContentsSha256 := none
    bucketContentsSha256 := none }

/-- Witness for the amended C4 at the ignored-path fixtures. -/
theorem id_recompute_per_operation_witness :
    dCreateIgnored.id = some (newS3ObjectResourceID dCreateIgnored) ∧
    dCreateIgnored.id = some (newS3ObjectResourceID dCreateIgnored) ∧
    dUpdateStale.id = planIgnore.id :=
  ⟨(id_recompute_per_operation resNotFound planIgnore dCreateIgnored).1 rfl,
   (id_recompute_per_operation resNotFound planIgnore dCreateIgnored).2.1 rfl,
   (id_recompute_per_operation resNotFound planIgnore dUpdateStale).2.2 rfl⟩

/-! ## C5 — what the put call carries (fails for tags on Create) -/

/-- C5 counterexample: a Create whose plan carries a non-empty tag mapping
issues a put whose `Tagging` field is unset — Create builds its
`putObjectOptions` without the `Tags` field, so the planned tags are not
forwarded (only Update forwards them). -/
theorem create_put_has_no_tags_counterexample :
    planTagged.tags ≠ [] ∧
    (resOk.Create planTagged).s3Calls =
      [S3Call.put (mkPutObjectInput ⟨"b", "k", "", [1, 2, 3], []⟩)] ∧
    (mkPutObjectInput ⟨"b", "k", "", [1, 2, 3], []⟩).tagging = none :=
  ⟨by decide, rfl, rfl⟩

/-- C5 amended: every Create or Update that reaches the write step puts to
the planned bucket and key with the planned `kmsKeyId`; the serialized tag
string is attached only by Update (when the planned mapping is non-empty) —
Create's put always carries no tagging. -/
theorem put_options_create_update
    (r : S3ObjectResource) (tfec : TfeClient) (s3c : S3Client)
    (plan : S3ObjectResourceModel) (v : StateVersion) (S : List Nat)
    (htfe : r.tfeClient = some tfec) (hs3 : r.s3Client = some s3c)
    (hver : tfec.readCurrent plan.workspaceId = Except.ok v)
    (hdl : tfec.download v.downloadURL = Except.ok S)
    (hS : S ≠ []) (hb : plan.bucket ≠ "") (hk : plan.key ≠ "") :
    (∃ i, (r.Create plan).s3Calls = [S3Call.put i] ∧
      i.bucket = plan.bucket ∧ i.key = plan.key ∧
      i.kmsKeyId = (if valueString plan.kmsKeyId = "" then none
        else some (valueString plan.kmsKeyId)) ∧
      i.tagging = none) ∧
    (∃ i, (r.Update plan).s3Calls = [S3Call.put i] ∧
      i.bucket = plan.bucket ∧ i.key = plan.key ∧
      i.kmsKeyId = (if valueString plan.kmsKeyId = "" then none
        else some (valueString plan.kmsKeyId)) ∧
      i.tagging = (if plan.tags = [] then none else some (newTags plan.tags))) := by
  have hgs : getStateFile tfec plan.workspaceId (valueBool plan.ignoreEmpty) =
      ⟨S, [], false, [TfeCall.readCurrent plan.workspaceId, TfeCall.download v.downloadURL]⟩ := by
    simp [getStateFile, hver, hdl]
  constructor
  · refine ⟨mkPutObjectInput ⟨plan.bucket, plan.key, valueString plan.kmsKeyId, S, []⟩,
      ?_, rfl, rfl, rfl, rfl⟩
    rcases hp : s3c.putObject
        (mkPutObjectInput ⟨plan.bucket, plan.key, valueString plan.kmsKeyId, S, []⟩)
      with _ | e <;>
      simp [S3ObjectResource.Create, htfe, hs3, hgs, putS3ObjectContents,
        putObjectOptions.validate, hb, hk, hS, hp, hasError, errDiag, Severity.isError]
  · refine ⟨mkPutObjectInput ⟨plan.bucket, plan.key, valueString plan.kmsKeyId, S, plan.tags⟩,
      ?_, rfl, rfl, rfl, rfl⟩
    rcases hp : s3c.putObject
        (mkPutObjectInput ⟨plan.bucket, plan.key, valueString plan.kmsKeyId, S, plan.tags⟩)
      with _ | e <;>
      simp [S3ObjectResource.Update, htfe, hs3, hgs, putS3ObjectContents,
        putObjectOptions.validate, hb, hk, hS, hp, hasError, errDiag, Severity.isError]

/-- Witness for the amended C5 on the tagged plan. -/
theorem put_options_create_update_witness :
    (∃ i, (resOk.Create planTagged).s3Calls = [S3Call.put i] ∧
      i.bucket = "b" ∧ i.key = "k" ∧
      i.kmsKeyId = (if valueString planTagged.kmsKeyId = "" then none
        else some (valueString planTagged.kmsKeyId)) ∧
      i.tagging = none) ∧
    (∃ i, (resOk.Update planTagged).s3Calls = [S3Call.put i] ∧
      i.bucket = "b" ∧ i.key = "k" ∧
      i.kmsKeyId = (if valueString planTagged.kmsKeyId = "" then none
        else some (valueString planTagged.kmsKeyId)) ∧
      i.tagging = (if planTagged.tags = [] then none
        else some (newTags planTagged.tags))) :=
  put_options_create_update resOk tfeOkClient s3TrivialClient planTagged ⟨"u"⟩ [1, 2, 3]
    rfl rfl rfl rfl (by decide) (by decide) (by decide)

/-! ## C9 — tag serialization round trip -/


theorem isUnreserved_excludes (b : Nat) (h : isUnreserved b = true) :
    b ≠ 32 ∧ b ≠ 37 ∧ b ≠ 38 ∧ b ≠ 43 ∧ b ≠ 61 := by
  simp only [isUnreserved, Bool.or_eq_true, Bool.and_eq_true, decide_eq_true_eq] at h
  omega

theorem hexDigitUpper_excludes (n : Nat) :
    hexDigitUpper n ≠ 38 ∧ hexDigitUpper n ≠ 61 := by
  unfold hexDigitUpper
  split <;> omega

theorem mem_encodeByte_excludes (b c : Nat) (hc : c ∈ encodeByte b) :
    c ≠ 38 ∧ c ≠ 61 := by
  unfold encodeByte at hc
  split at hc
  · next h =>
    simp only [List.mem_singleton] at hc
    subst hc
    exact ⟨(isUnreserved_excludes c h).2.2.1, (isUnreserved_excludes c h).2.2.2.2⟩
  · split at hc
    · simp only [List.mem_singleton] at hc
      omega
    · simp only [List.mem_cons, List.mem_singleton, List.not_mem_nil, or_false] at hc
      rcases hc with rfl | rfl | rfl
      · omega
      · exact hexDigitUpper_excludes _
      · exact hexDigitUpper_excludes _

theorem amp_not_mem_queryEscape (bs : List Nat) : 38 ∉ queryEscape bs := by
  induction bs with
  | nil => simp [queryEscape]
  | cons b rest ih =>
    simp only [queryEscape, List.mem_append]
    rintro (hc | hc)
    · exact (mem_encodeByte_excludes b 38 hc).1 rfl
    · exact ih hc

theorem eqsign_not_mem_queryEscape (bs : List Nat) : 61 ∉ queryEscape bs := by
  induction bs with
  | nil => simp [queryEscape]
  | cons b rest ih =>
    simp only [queryEscape, List.mem_append]
    rintro (hc | hc)
    · exact (mem_encodeByte_excludes b 61 hc).2 rfl
    · exact ih hc

theorem splitOnAmp_no_amp (p : List Nat) (hp : 38 ∉ p) : splitOnAmp p = [p] := by
  induction p with
  | nil => rfl
  | cons b rest ih =>
    have hb : b ≠ 38 := fun h => hp (h ▸ List.mem_cons_self b rest)
    have hr : 38 ∉ rest := fun h => hp (List.mem_cons_of_mem b h)
    simp [splitOnAmp, hb, ih hr]

theorem splitOnAmp_append (p rest : List Nat) (hp : 38 ∉ p) :
    splitOnAmp (p ++ 38 :: rest) = p :: splitOnAmp rest := by
  induction p with
  | nil => simp [splitOnAmp]
  | cons b p2 ih =>
    have hb : b ≠ 38 := fun h => hp (h ▸ List.mem_cons_self b p2)
    have hr : 38 ∉ p2 := fun h => hp (List.mem_cons_of_mem b h)
    simp [splitOnAmp, hb, ih hr]

theorem splitOnAmp_joinAmp (ps : List (List Nat)) (hne : ps ≠ [])
    (h : ∀ p ∈ ps, 38 ∉ p) : splitOnAmp (joinAmp ps) = ps := by
  induction ps with
  | nil => exact absurd rfl hne
  | cons p ps2 ih =>
    cases ps2 with
    | nil => exact splitOnAmp_no_amp p (h p (List.mem_cons_self p []))
    | cons q ps3 =>
      have hp : 38 ∉ p := h p (List.mem_cons_self p (q :: ps3))
      have h2 : ∀ x ∈ q :: ps3, 38 ∉ x := fun x hx => h x (List.mem_cons_of_mem p hx)
      simp only [joinAmp, splitOnAmp_append p _ hp]
      rw [ih (by simp) h2]

theorem splitEq_append (k v : List Nat) (hk : 61 ∉ k) :
    splitEq (k ++ 61 :: v) = (k, v) := by
  induction k with
  | nil => simp [splitEq]
  | cons b k2 ih =>
    have hb : b ≠ 61 := fun h => hk (h ▸ List.mem_cons_self b k2)
    have hr : 61 ∉ k2 := fun h => hk (List.mem_cons_of_mem b h)
    simp [splitEq, hb, ih hr]

theorem hexVal_hexDigitUpper (n : Nat) (h : n < 16) :
    hexVal (hexDigitUpper n) = n := by
  unfold hexDigitUpper hexVal
  split <;> simp only [Bool.and_eq_true, decide_eq_true_eq] <;> split
  all_goals first | omega | (split <;> omega)

theorem isHexDigit_hexDigitUpper (n : Nat) (h : n < 16) :
    isHexDigit (hexDigitUpper n) = true := by
  unfold hexDigitUpper isHexDigit
  split <;> simp only [Bool.or_eq_true, Bool.and_eq_true, decide_eq_true_eq] <;> omega

theorem queryUnescape_cons_plain (b : Nat) (l : List Nat) (h43 : b ≠ 43) (h37 : b ≠ 37) :
    queryUnescape (b :: l) = b :: queryUnescape l := by
  rw [queryUnescape.eq_def]
  simp [h43, h37]

theorem queryUnescape_cons_plus (l : List Nat) :
    queryUnescape (43 :: l) = 32 :: queryUnescape l := by
  rw [queryUnescape.eq_def]
  simp

theorem queryUnescape_cons_pct (d1 d2 : Nat) (l : List Nat)
    (h1 : isHexDigit d1 = true) (h2 : isHexDigit d2 = true) :
    queryUnescape (37 :: d1 :: d2 :: l) =
      (hexVal d1 * 16 + hexVal d2) :: queryUnescape l := by
  rw [queryUnescape.eq_def]
  simp [h1, h2]

theorem queryUnescape_queryEscape (bs : List Nat) (h : ∀ b ∈ bs, b < 256) :
    queryUnescape (queryEscape bs) = bs := by
  induction bs with
  | nil => rfl
  | cons b rest ih =>
    have hb : b < 256 := h b (List.mem_cons_self b rest)
    have hrest : ∀ x ∈ rest, x < 256 := fun x hx => h x (List.mem_cons_of_mem b hx)
    simp only [queryEscape]
    unfold encodeByte
    split
    · next hu =>
      have he := isUnreserved_excludes b hu
      simp [queryUnescape_cons_plain b _ he.2.2.2.1 he.2.1, ih hrest]
    · split
      · next hsp =>
        subst hsp
        simp [queryUnescape_cons_plus, ih hrest]
      · next hu hsp =>
        have hd1 : isHexDigit (hexDigitUpper (b / 16)) = true :=
          isHexDigit_hexDigitUpper _ (by omega)
        have hd2 : isHexDigit (hexDigitUpper (b % 16)) = true :=
          isHexDigit_hexDigitUpper _ (by omega)
        have hv1 : hexVal (hexDigitUpper (b / 16)) = b / 16 :=
          hexVal_hexDigitUpper _ (by omega)
        have hv2 : hexVal (hexDigitUpper (b % 16)) = b % 16 :=
          hexVal_hexDigitUpper _ (by omega)
        simp only [List.cons_append, List.nil_append,
          queryUnescape_cons_pct _ _ _ hd1 hd2, hv1, hv2, ih hrest]
        have : b / 16 * 16 + b % 16 = b := by omega
        rw [this]

theorem decode_pairs (tags : List (List Nat × List Nat))
    (hval : ∀ kv ∈ tags, (∀ b ∈ kv.1, b < 256) ∧ (∀ b ∈ kv.2, b < 256)) :
    (tags.map fun kv => queryEscape kv.1 ++ 61 :: queryEscape kv.2).map
        (fun p => (queryUnescape (splitEq p).1, queryUnescape (splitEq p).2)) = tags := by
  induction tags with
  | nil => rfl
  | cons kv rest ih =>
    have h1 := (hval kv (List.mem_cons_self kv rest)).1
    have h2 := (hval kv (List.mem_cons_self kv rest)).2
    have hrest : ∀ x ∈ rest, (∀ b ∈ x.1, b < 256) ∧ (∀ b ∈ x.2, b < 256) :=
      fun x hx => hval x (List.mem_cons_of_mem kv hx)
    simp only [List.map_cons]
    rw [splitEq_append _ _ (eqsign_not_mem_queryEscape kv.1)]
    simp [queryUnescape_queryEscape _ h1, queryUnescape_queryEscape _ h2, ih hrest]

/-- C9: for every non-empty tag mapping over Go bytes, `newTags` produces a
string of URL-escaped `key=value` pairs joined by `&` such that splitting on
`&` and (first) `=` and URL-unescaping each component recovers exactly the
original mapping, one pair per entry. -/
theorem newTags_roundtrip (tags : List (List Nat × List Nat))
    (hne : tags ≠ [])
    (hval : ∀ kv ∈ tags, (∀ b ∈ kv.1, b < 256) ∧ (∀ b ∈ kv.2, b < 256)) :
    decodeTags (newTags tags) = tags := by
  have hnoamp : ∀ p ∈ tags.map (fun kv => queryEscape kv.1 ++ 61 :: queryEscape kv.2),
      38 ∉ p := by
    intro p hp
    simp only [List.mem_map] at hp
    obtain ⟨kv, _, rfl⟩ := hp
    intro hmem
    simp only [List.mem_append, List.mem_cons] at hmem
    rcases hmem with h | h | h
    · exact amp_not_mem_queryEscape _ h
    · omega
    · exact amp_not_mem_queryEscape _ h
  unfold newTags decodeTags
  rw [splitOnAmp_joinAmp _ (by simpa using hne) hnoamp]
  exact decode_pairs tags hval

/-- Witness for C9 at the spec's example mapping. -/
theorem newTags_roundtrip_witness :
    decodeTags (newTags [([97], [49]), ([98], [120, 32, 121])]) =
      [([97], [49]), ([98], [120, 32, 121])] :=
  newTags_roundtrip [([97], [49]), ([98], [120, 32, 121])] (by decide) (by decide)
